import Mathlib

/-!
# A shallow embedding of the graphctl persistence core

This file models the property-graph repository of `src/db.rs`, the CLI
property parsing of `src/main.rs` and the identifier generator of
`src/util.rs`, and proves properties of the model.

Modelling conventions:

* The libsql/SQLite storage file is a `Store` record: one `Bool` per table
  created by the DDL (a statement against a missing table fails with
  `Err.noSuchTable`), the `_meta` row for `migration_count`, and one list of
  rows per data table, in insertion (rowid) order.
* Each `async fn` taking a `&Connection` becomes a function on `Store`.
  Fallible operations return `Except Err`; operations that also write return
  `Store × Except Err _`, where the returned store is the caller's store
  unchanged whenever the result is an error (libsql transactions roll back
  when dropped without commit, and `?` drops the transaction).
* `util::new_id` (a v4 UUID) and `Local::now()` are external sources of
  nondeterminism; they are passed in as explicit `id` and `now` arguments.
* JSON property values are opaque to every operation modelled here: the code
  stores `value.to_string()` (the serialized text) and re-parses it on read,
  a round trip that is the identity. We therefore model a `serde_json::Value`
  by its serialized text (`Json := String`), serialization by the identity,
  and timestamps by their RFC-3339 text.
* `HashMap<String, Value>` is modelled as an association list giving the
  map's entries in one iteration order; `HashMap::insert` is an
  overwrite-or-append on that list.
* `Store.appliedV1` is ghost instrumentation: it counts how many times the
  `migrations_v1` DDL has been executed against the storage file.
-/

/-- A `serde_json::Value`, modelled by its serialized JSON text (the
serialize/parse round trip used by the code is the identity). -/
abbrev Json := String

/-- `Value::to_string()`: serialization, the identity in this model. -/
def jsonToText (j : Json) : String := j

/-- Drop whitespace from both ends of a character list. -/
def trimChars (cs : List Char) : List Char :=
  ((cs.dropWhile Char.isWhitespace).reverse.dropWhile Char.isWhitespace).reverse

/-- Rust `str::trim`: remove surrounding whitespace. (Implemented over the
character list so that it reduces inside the kernel.) -/
def rustTrim (s : String) : String := ⟨trimChars s.data⟩

/-- Rust `str::to_lowercase`, on the ASCII range actually exercised here. -/
def rustToLower (s : String) : String := ⟨s.data.map Char.toLower⟩

/-- A value stored in the `_meta` table's `val_int` column. -/
inductive SqlValue where
  | integer (v : Int)
  | text (t : String)
  | null
deriving DecidableEq, Repr

/-- A row of the `nodes` table. The `labels` column is TEXT holding a
JSON-encoded array; it is modelled by the array it encodes. -/
structure NodeRow where
  id : String
  labels : List String
  created_at : String
  updated_at : String
deriving DecidableEq, Repr

/-- A row of the `node_props` table (primary key `(node_id, key)`). -/
structure NodePropRow where
  node_id : String
  key : String
  value : String
  created_at : String
  updated_at : String
deriving DecidableEq, Repr

/-- A row of the `edges` table. -/
structure EdgeRow where
  id : String
  edge_type : String
  from_node : String
  to_node : String
  directed : Bool
  created_at : String
  updated_at : String
deriving DecidableEq, Repr

/-- A row of the `edge_props` table (primary key `(edge_id, key)`). -/
structure EdgePropRow where
  edge_id : String
  key : String
  value : String
  created_at : String
  updated_at : String
deriving DecidableEq, Repr

/-- The storage file. Row lists are in insertion (rowid) order, the order a
bare `SELECT` returns them in. `appliedV1` is a ghost counter of how many
times the `migrations_v1` DDL has run. -/
structure Store where
  metaTable : Bool
  migrationCount : Option SqlValue
  nodesTable : Bool
  nodePropsTable : Bool
  edgesTable : Bool
  edgePropsTable : Bool
  nodes : List NodeRow
  nodeProps : List NodePropRow
  edges : List EdgeRow
  edgeProps : List EdgePropRow
  appliedV1 : Nat
deriving DecidableEq, Repr

/-- A brand-new storage file: no tables, no rows. -/
def Store.fresh : Store :=
  { metaTable := false
    migrationCount := none
    nodesTable := false
    nodePropsTable := false
    edgesTable := false
    edgePropsTable := false
    nodes := []
    nodeProps := []
    edges := []
    edgeProps := []
    appliedV1 := 0 }

/-- Errors surfaced by the modelled operations (`anyhow::Error` in the code,
with SQL-level failures from libsql). -/
inductive Err where
  | noSuchTable (t : String)
  | noSuchColumn (c : String)
  | uniqueViolation (t : String)
  | notFound
  | invalidMigrationCount
  | cliError (msg : String)
deriving DecidableEq, Repr

/-- `util::new_id(prefix)`: `format!("{}-{}", prefix, Uuid::new_v4())`,
with the UUID's 36-character text passed in explicitly. -/
def new_id (pre uuidText : String) : String := pre ++ "-" ++ uuidText

instance {ε α : Type _} [DecidableEq ε] [DecidableEq α] :
    DecidableEq (Except ε α)
  | .error e1, .error e2 =>
    if h : e1 = e2 then .isTrue (by rw [h])
    else .isFalse (fun hc => h (Except.error.inj hc))
  | .error _, .ok _ => .isFalse Except.noConfusion
  | .ok _, .error _ => .isFalse Except.noConfusion
  | .ok a1, .ok a2 =>
    if h : a1 = a2 then .isTrue (by rw [h])
    else .isFalse (fun hc => h (Except.ok.inj hc))

/-! ## Schema Migration Manager (`init_db` and helpers, db.rs 106-242) -/

/-- `get_migration_count`: creates `_meta` if absent, reads the
`migration_count` row, inserting it with value `0` when absent. Errors when
the stored value is not an integer. -/
def get_migration_count (s : Store) : Store × Except Err Int :=
  let s1 : Store := { s with metaTable := true }
  match s.migrationCount with
  | some (SqlValue.integer v) => (s1, .ok v)
  | some _ => (s1, .error .invalidMigrationCount)
  | none => ({ s1 with migrationCount := some (SqlValue.integer 0) }, .ok 0)

/-- `set_migration_count`: `UPDATE _meta SET val_int = ? WHERE key =
'migration_count'`. Updating zero rows is not an error. -/
def set_migration_count (s : Store) (count : Nat) : Store × Except Err Unit :=
  if s.metaTable then
    match s.migrationCount with
    | some _ => ({ s with migrationCount := some (SqlValue.integer count) }, .ok ())
    | none => (s, .ok ())
  else (s, .error (.noSuchTable "_meta"))

/-- `migrations_v1`: four `CREATE TABLE IF NOT EXISTS` statements, which
have no failure path in the model. The ghost counter records the run. -/
def migrations_v1 (s : Store) : Store :=
  { s with nodesTable := true, nodePropsTable := true,
           edgesTable := true, edgePropsTable := true,
           appliedV1 := s.appliedV1 + 1 }

/-- `init_db` (the spec's `ensure_schema`): read the migration count and run
`migrations_v1` followed by `set_migration_count 1` when it is below 1. -/
def init_db (s : Store) : Store × Except Err Unit :=
  match get_migration_count s with
  | (s, .error e) => (s, .error e)
  | (s, .ok count) =>
    if count < 1 then
      let s := migrations_v1 s
      match set_migration_count s 1 with
      | (s, .error e) => (s, .error e)
      | (s, .ok ()) => (s, .ok ())
    else (s, .ok ())

/-! ## Repository row-level helpers -/

/-- The materialized node the repository returns (`DbNode` in db.rs). -/
structure DbNode where
  id : String
  labels : List String
  props : Option (List (String × Json))
  created_at : String
  updated_at : String
deriving DecidableEq, Repr

/-- The materialized edge the repository returns (`DbEdge` in db.rs). -/
structure DbEdge where
  id : String
  edge_type : String
  from_node : String
  to_node : String
  directed : Bool
  props : Option (List (String × Json))
  created_at : String
  updated_at : String
deriving DecidableEq, Repr

structure CreateNodeParams where
  labels : List String
  props : List (String × Json)
deriving DecidableEq, Repr

structure CreateEdgeParams where
  edge_type : String
  from_node : String
  to_node : String
  directed : Bool
  props : List (String × Json)
deriving DecidableEq, Repr

/-- `INSERT INTO nodes ...` inside a transaction: fails on a duplicate
primary key `id` or a missing table. -/
def insertNodeRow (tx : Store) (id : String) (labels : List String)
    (now : String) : Except Err Store :=
  if tx.nodesTable then
    if tx.nodes.any (fun r => r.id == id) then .error (.uniqueViolation "nodes")
    else .ok { tx with nodes := tx.nodes ++ [⟨id, labels, now, now⟩] }
  else .error (.noSuchTable "nodes")

/-- `INSERT INTO node_props ...` for one already-normalized key: fails on a
duplicate `(node_id, key)` primary key or a missing table. -/
def insertNodePropRow (tx : Store) (nodeId key value now : String) :
    Except Err Store :=
  if tx.nodePropsTable then
    if tx.nodeProps.any (fun r => r.node_id == nodeId && r.key == key) then
      .error (.uniqueViolation "node_props")
    else .ok { tx with nodeProps := tx.nodeProps ++ [⟨nodeId, key, value, now, now⟩] }
  else .error (.noSuchTable "node_props")

/-- The property loop of `create_node` (db.rs 299-321): each key is
normalized by `key.trim()` before insertion. -/
def insertNodeProps (tx : Store) (nodeId now : String) :
    List (String × Json) → Except Err Store
  | [] => .ok tx
  | (key, value) :: rest =>
    match insertNodePropRow tx nodeId (rustTrim key) (jsonToText value) now with
    | .error e => .error e
    | .ok tx1 => insertNodeProps tx1 nodeId now rest

/-- `INSERT INTO edges ...` inside a transaction. The schema declares
`REFERENCES nodes(id)` on both endpoints, but the code never enables SQLite
foreign-key enforcement (no `PRAGMA foreign_keys`), so the insert does not
check that the endpoints exist. -/
def insertEdgeRow (tx : Store) (id : String) (p : CreateEdgeParams)
    (now : String) : Except Err Store :=
  if tx.edgesTable then
    if tx.edges.any (fun r => r.id == id) then .error (.uniqueViolation "edges")
    else .ok { tx with edges :=
      tx.edges ++ [⟨id, p.edge_type, p.from_node, p.to_node, p.directed, now, now⟩] }
  else .error (.noSuchTable "edges")

/-- `INSERT INTO edge_props ...` for one already-normalized key. -/
def insertEdgePropRow (tx : Store) (edgeId key value now : String) :
    Except Err Store :=
  if tx.edgePropsTable then
    if tx.edgeProps.any (fun r => r.edge_id == edgeId && r.key == key) then
      .error (.uniqueViolation "edge_props")
    else .ok { tx with edgeProps := tx.edgeProps ++ [⟨edgeId, key, value, now, now⟩] }
  else .error (.noSuchTable "edge_props")

/-- The property loop of `create_edge` (db.rs 381-403): each key is
normalized by `key.trim().to_lowercase()` before insertion. -/
def insertEdgeProps (tx : Store) (edgeId now : String) :
    List (String × Json) → Except Err Store
  | [] => .ok tx
  | (key, value) :: rest =>
    match insertEdgePropRow tx edgeId (rustToLower (rustTrim key)) (jsonToText value) now with
    | .error e => .error e
    | .ok tx1 => insertEdgeProps tx1 edgeId now rest

/-! ## Node and Edge Repositories (db.rs 272-419, 492-579, 639-687) -/

/-- The transaction body of `create_node`: insert the node row, then one
property row per map entry. -/
def createNodeTx (s : Store) (id now : String) (p : CreateNodeParams) :
    Except Err Store :=
  match insertNodeRow s id p.labels now with
  | .error e => .error e
  | .ok tx => insertNodeProps tx id now p.props

/-- `create_node`: run the transaction body and commit on success. An error
drops the uncommitted transaction, so the caller's store is returned
unchanged. The returned `DbNode` is built from the inputs, not re-read from
the store. -/
def create_node (s : Store) (id now : String) (p : CreateNodeParams) :
    Store × Except Err DbNode :=
  match createNodeTx s id now p with
  | .error e => (s, .error e)
  | .ok tx =>
    (tx, .ok { id := id, labels := p.labels, props := some p.props,
               created_at := now, updated_at := now })

/-- The transaction body of `create_edge`: insert the edge row, then one
property row per map entry. No endpoint-existence check is performed. -/
def createEdgeTx (s : Store) (id now : String) (p : CreateEdgeParams) :
    Except Err Store :=
  match insertEdgeRow s id p now with
  | .error e => .error e
  | .ok tx => insertEdgeProps tx id now p.props

/-- `create_edge`: run the transaction body and commit on success; on an
error the caller's store is returned unchanged. -/
def create_edge (s : Store) (id now : String) (p : CreateEdgeParams) :
    Store × Except Err DbEdge :=
  match createEdgeTx s id now p with
  | .error e => (s, .error e)
  | .ok tx =>
    (tx, .ok { id := id, edge_type := p.edge_type, from_node := p.from_node,
               to_node := p.to_node, directed := p.directed,
               props := some p.props, created_at := now, updated_at := now })

/-- `check_node_exists`: `SELECT COUNT(*) > 0 FROM nodes WHERE id = ?`. -/
def check_node_exists (s : Store) (id : String) : Except Err Bool :=
  if s.nodesTable then .ok (s.nodes.any (fun r => r.id == id))
  else .error (.noSuchTable "nodes")

structure GetNodeParams where
  id : String
  with_props : Bool
deriving DecidableEq, Repr

/-- `get_node_props`: all `(key, value)` rows for the node as a map; each
stored value text is parsed back (the identity on what was stored). -/
def get_node_props (s : Store) (nodeId : String) :
    Except Err (List (String × Json)) :=
  if s.nodePropsTable then
    .ok ((s.nodeProps.filter (fun r => r.node_id == nodeId)).map
      (fun r => (r.key, r.value)))
  else .error (.noSuchTable "node_props")

/-- The column list of the `nodes` table created by `migrations_v1`. -/
def nodesTableColumns : List String := ["id", "labels", "created_at", "updated_at"]

/-- The column list named by `get_node`'s SELECT (db.rs 533). -/
def getNodeQueryColumns : List String := ["id", "node_type", "created_at", "updated_at"]

/-- `get_node`: prepare `SELECT id, node_type, created_at, updated_at FROM
nodes WHERE id = ?`. Preparing fails when a selected column does not exist
in the table; otherwise the single row is fetched (`notFound` when absent)
and properties attached when requested. -/
def get_node (s : Store) (p : GetNodeParams) : Except Err DbNode :=
  if s.nodesTable then
    match getNodeQueryColumns.filter (fun c => !(nodesTableColumns.contains c)) with
    | missing :: _ => .error (.noSuchColumn missing)
    | [] =>
      match s.nodes.find? (fun r => r.id == p.id) with
      | none => .error .notFound
      | some r =>
        let node : DbNode :=
          { id := r.id, labels := r.labels, props := none,
            created_at := r.created_at, updated_at := r.updated_at }
        if p.with_props then
          match get_node_props s p.id with
          | .error e => .error e
          | .ok props => .ok { node with props := some props }
        else .ok node
  else .error (.noSuchTable "nodes")

/-! ## Traversal Engine (db.rs 639-687) -/

/-- The id list produced by `get_node_edges_in`'s query:
`SELECT id FROM edges WHERE to_node = ? OR (NOT directed AND from_node = ?)`. -/
def edgesInIds (s : Store) (nodeId : String) : List String :=
  (s.edges.filter (fun e => e.to_node == nodeId || (!e.directed && e.from_node == nodeId))).map
    (fun e => e.id)

/-- The id list produced by `get_node_edges_out`'s query:
`SELECT id FROM edges WHERE from_node = ? OR (NOT directed AND to_node = ?)`. -/
def edgesOutIds (s : Store) (nodeId : String) : List String :=
  (s.edges.filter (fun e => e.from_node == nodeId || (!e.directed && e.to_node == nodeId))).map
    (fun e => e.id)

/-- `get_node_edges_in`. -/
def get_node_edges_in (s : Store) (nodeId : String) : Except Err (List String) :=
  if s.edgesTable then .ok (edgesInIds s nodeId) else .error (.noSuchTable "edges")

/-- `get_node_edges_out`. -/
def get_node_edges_out (s : Store) (nodeId : String) : Except Err (List String) :=
  if s.edgesTable then .ok (edgesOutIds s nodeId) else .error (.noSuchTable "edges")

/-! ## Command layer (main.rs 191-309) -/

/-- Split a character list at the first `=`: the part before it, and the
part after it when one exists. -/
def splitn2EqChars : List Char → List Char × Option (List Char)
  | [] => ([], none)
  | c :: rest =>
    if c = '=' then ([], some rest)
    else
      let kv := splitn2EqChars rest
      (c :: kv.1, kv.2)

/-- Rust `p.splitn(2, '=')` as a list: at most two pieces, split at the
first `=`. -/
def splitn2Eq (p : String) : List String :=
  match splitn2EqChars p.data with
  | (k, none) => [⟨k⟩]
  | (k, some v) => [⟨k⟩, ⟨v⟩]

/-- The decoding applied to a `--prop` value: `serde_json::from_str` when it
parses, else a JSON string literal of the raw text. Either way the decoded
value is a function of the raw text alone and is opaque to every claim, so
it is modelled by the raw text. -/
def argToJson (v : String) : Json := v

/-- Parsing of one `--prop key=value` argument (main.rs 199-229 and
261-291): split at the first `=`, trim the key, reject an empty key, reject
a missing value. -/
def parseProp (p : String) : Except Err (String × Json) :=
  match splitn2Eq p with
  | [] => .error (.cliError "Failed to parse key-value pair.")
  | [k] =>
    let key := rustTrim k
    if key = "" then .error (.cliError "Empty key in key-value pair.")
    else .error (.cliError "Failed to parse key-value pair.")
  | k :: v :: _ =>
    let key := rustTrim k
    if key = "" then .error (.cliError "Empty key in key-value pair.")
    else .ok (key, argToJson v)

/-- `HashMap::insert`: overwrite the binding when the key is present,
otherwise add it. -/
def mapInsert (m : List (String × Json)) (k : String) (v : Json) :
    List (String × Json) :=
  if m.any (fun kv => kv.1 == k) then
    m.map (fun kv => if kv.1 == k then (k, v) else kv)
  else m ++ [(k, v)]

/-- The `--prop` parsing loop over an accumulating map: parse each argument
and insert it (a later occurrence of a key silently overwrites an earlier
one — the loop never reports a duplicate). -/
def parsePropsLoop (acc : List (String × Json)) :
    List String → Except Err (List (String × Json))
  | [] => .ok acc
  | p :: rest =>
    match parseProp p with
    | .error e => .error e
    | .ok (k, v) => parsePropsLoop (mapInsert acc k v) rest

/-- Parsing of all `--prop` arguments, starting from an empty map. -/
def parseProps (args : List String) : Except Err (List (String × Json)) :=
  parsePropsLoop [] args

/-- The `create node` command handler (main.rs 193-244): parse the `--prop`
arguments into a map, then call `create_node`. -/
def cliCreateNode (s : Store) (id now : String) (labels : List String)
    (propArgs : List String) : Store × Except Err DbNode :=
  match parseProps propArgs with
  | .error e => (s, .error e)
  | .ok props => create_node s id now { labels := labels, props := props }

/-- The `create edge` command handler (main.rs 245-309): check that the
`from` node exists, check the `to` node only when it differs from `from`
(both failures report "Source node does not exist."), then parse the
`--prop` arguments and call `create_edge`. -/
def cliCreateEdge (s : Store) (id now : String) (edge_type from_node to_node : String)
    (directed : Bool) (propArgs : List String) : Store × Except Err DbEdge :=
  match check_node_exists s from_node with
  | .error e => (s, .error e)
  | .ok fromExists =>
    if !fromExists then (s, .error (.cliError "Source node does not exist."))
    else
      match (if from_node != to_node then check_node_exists s to_node else .ok true) with
      | .error e => (s, .error e)
      | .ok toExists =>
        if !toExists then (s, .error (.cliError "Source node does not exist."))
        else
          match parseProps propArgs with
          | .error e => (s, .error e)
          | .ok props =>
            create_edge s id now
              { edge_type := edge_type, from_node := from_node,
                to_node := to_node, directed := directed, props := props }

/-! ## Helper lemmas -/

/-- A successful node-row insert leaves the property rows untouched. -/
lemma insertNodeRow_ok_nodeProps {tx tx' : Store} {id : String}
    {labels : List String} {now : String}
    (h : insertNodeRow tx id labels now = .ok tx') :
    tx'.nodeProps = tx.nodeProps := by
  unfold insertNodeRow at h
  split at h
  · split at h
    · cases h
    · cases h; rfl
  · cases h

/-- A successful edge-row insert leaves the edge property rows untouched. -/
lemma insertEdgeRow_ok_edgeProps {tx tx' : Store} {id : String}
    {p : CreateEdgeParams} {now : String}
    (h : insertEdgeRow tx id p now = .ok tx') :
    tx'.edgeProps = tx.edgeProps := by
  unfold insertEdgeRow at h
  split at h
  · split at h
    · cases h
    · cases h; rfl
  · cases h

/-- A successful property loop appends exactly one row per map entry, with
the key normalized by `trim`. -/
lemma insertNodeProps_ok_eq {nid now : String} :
    ∀ (l : List (String × Json)) (tx tx' : Store),
      insertNodeProps tx nid now l = .ok tx' →
      tx'.nodeProps = tx.nodeProps ++
        l.map (fun kv => ⟨nid, rustTrim kv.1, jsonToText kv.2, now, now⟩) := by
  intro l
  induction l with
  | nil => intro tx tx' h; cases h; simp [insertNodeProps]
  | cons kv rest ih =>
    intro tx tx' h
    unfold insertNodeProps at h
    cases hrow : insertNodePropRow tx nid (rustTrim kv.1) (jsonToText kv.2) now with
    | error e => rw [hrow] at h; cases h
    | ok tx1 =>
      rw [hrow] at h
      have h1 := ih tx1 tx' h
      unfold insertNodePropRow at hrow
      split at hrow
      · split at hrow
        · cases hrow
        · cases hrow; simp_all
      · cases hrow

/-- A successful edge property loop appends exactly one row per map entry,
with the key normalized by `trim` followed by `toLower`. -/
lemma insertEdgeProps_ok_eq {eid now : String} :
    ∀ (l : List (String × Json)) (tx tx' : Store),
      insertEdgeProps tx eid now l = .ok tx' →
      tx'.edgeProps = tx.edgeProps ++
        l.map (fun kv => ⟨eid, rustToLower (rustTrim kv.1), jsonToText kv.2, now, now⟩) := by
  intro l
  induction l with
  | nil => intro tx tx' h; cases h; simp [insertEdgeProps]
  | cons kv rest ih =>
    intro tx tx' h
    unfold insertEdgeProps at h
    cases hrow : insertEdgePropRow tx eid (rustToLower (rustTrim kv.1)) (jsonToText kv.2) now with
    | error e => rw [hrow] at h; cases h
    | ok tx1 =>
      rw [hrow] at h
      have h1 := ih tx1 tx' h
      unfold insertEdgePropRow at hrow
      split at hrow
      · split at hrow
        · cases hrow
        · cases hrow; simp_all
      · cases hrow

/-- Whether `node_props` already holds a row `(nodeId, key)`. -/
def hasNodePropRow (tx : Store) (nodeId key : String) : Bool :=
  tx.nodeProps.any (fun r => r.node_id == nodeId && r.key == key)

/-- If a `(nodeId, key)` row is already present, no later entry of a
successful property loop may normalize to `key`: its insert would have hit
the `(node_id, key)` primary key. -/
lemma insertNodeProps_ok_key_fresh {nid now key : String} :
    ∀ (l : List (String × Json)) (tx tx' : Store),
      hasNodePropRow tx nid key = true →
      insertNodeProps tx nid now l = .ok tx' →
      key ∉ l.map (fun kv => rustTrim kv.1) := by
  intro l
  induction l with
  | nil => intro tx tx' _ _ h; cases h
  | cons kv rest ih =>
    intro tx tx' hkey h
    unfold insertNodeProps at h
    cases hrow : insertNodePropRow tx nid (rustTrim kv.1) (jsonToText kv.2) now with
    | error e => rw [hrow] at h; cases h
    | ok tx1 =>
      rw [hrow] at h
      unfold insertNodePropRow at hrow
      split at hrow
      · split at hrow
        · cases hrow
        · rename_i hnew
          cases hrow
          intro hmem
          rcases List.mem_cons.mp hmem with heq | hmem'
          · -- the head's trimmed key equals `key`: contradicts the
            -- primary-key check passing while the row is present
            have heq' : key = rustTrim kv.1 := heq
            subst heq'
            exact hnew hkey
          · -- the collision is further down: the row survives the append
            have hkey1 : hasNodePropRow
                { tx with nodeProps := tx.nodeProps ++
                  [⟨nid, rustTrim kv.1, jsonToText kv.2, now, now⟩] } nid key = true := by
              unfold hasNodePropRow at hkey ⊢
              simp only [List.any_append, Bool.or_eq_true]
              exact Or.inl hkey
            exact ih _ tx' hkey1 h hmem'
      · cases hrow

/-- A successful `create_node` property loop implies the trimmed keys were
pairwise distinct: a repeated trimmed key always violates the
`(node_id, key)` primary key. -/
lemma insertNodeProps_ok_trim_nodup {nid now : String} :
    ∀ (l : List (String × Json)) (tx tx' : Store),
      insertNodeProps tx nid now l = .ok tx' →
      (l.map (fun kv => rustTrim kv.1)).Nodup := by
  intro l
  induction l with
  | nil => intro tx tx' _; simp
  | cons kv rest ih =>
    intro tx tx' h
    unfold insertNodeProps at h
    cases hrow : insertNodePropRow tx nid (rustTrim kv.1) (jsonToText kv.2) now with
    | error e => rw [hrow] at h; cases h
    | ok tx1 =>
      rw [hrow] at h
      refine List.nodup_cons.mpr ⟨?_, ih _ _ h⟩
      have hkey1 : hasNodePropRow tx1 nid (rustTrim kv.1) = true := by
        unfold insertNodePropRow at hrow
        split at hrow
        · split at hrow
          · cases hrow
          · cases hrow
            unfold hasNodePropRow
            simp
        · cases hrow
      exact insertNodeProps_ok_key_fresh rest tx1 tx' hkey1 h

/-- An edge row matching the out-query contributes its id to the result. -/
lemma mem_edgesOutIds_of_match {s : Store} {n : String} {e : EdgeRow}
    (he : e ∈ s.edges)
    (hm : (e.from_node == n || (!e.directed && e.to_node == n)) = true) :
    e.id ∈ edgesOutIds s n := by
  unfold edgesOutIds
  exact List.mem_map_of_mem _ (List.mem_filter.mpr ⟨he, hm⟩)

/-- An edge row matching the in-query contributes its id to the result. -/
lemma mem_edgesInIds_of_match {s : Store} {n : String} {e : EdgeRow}
    (he : e ∈ s.edges)
    (hm : (e.to_node == n || (!e.directed && e.from_node == n)) = true) :
    e.id ∈ edgesInIds s n := by
  unfold edgesInIds
  exact List.mem_map_of_mem _ (List.mem_filter.mpr ⟨he, hm⟩)

/-- With distinct edge ids, a stored edge row not matching the out-query
keeps its id out of the result. -/
lemma not_mem_edgesOutIds {s : Store} {n : String} {e : EdgeRow}
    (hnd : (s.edges.map (fun x => x.id)).Nodup)
    (he : e ∈ s.edges)
    (hm : (e.from_node == n || (!e.directed && e.to_node == n)) = false) :
    e.id ∉ edgesOutIds s n := by
  unfold edgesOutIds
  intro hmem
  obtain ⟨e', he', hid⟩ := List.mem_map.mp hmem
  have he'mem := (List.mem_filter.mp he').1
  have he'match := (List.mem_filter.mp he').2
  have : e' = e := List.inj_on_of_nodup_map hnd he'mem he hid
  subst this
  rw [he'match] at hm
  cases hm

/-- With distinct edge ids, a stored edge row not matching the in-query
keeps its id out of the result. -/
lemma not_mem_edgesInIds {s : Store} {n : String} {e : EdgeRow}
    (hnd : (s.edges.map (fun x => x.id)).Nodup)
    (he : e ∈ s.edges)
    (hm : (e.to_node == n || (!e.directed && e.from_node == n)) = false) :
    e.id ∉ edgesInIds s n := by
  unfold edgesInIds
  intro hmem
  obtain ⟨e', he', hid⟩ := List.mem_map.mp hmem
  have he'mem := (List.mem_filter.mp he').1
  have he'match := (List.mem_filter.mp he').2
  have : e' = e := List.inj_on_of_nodup_map hnd he'mem he hid
  subst this
  rw [he'match] at hm
  cases hm

/-- Setting `metaTable` to `true` is the identity once it is already
`true` (the `CREATE TABLE IF NOT EXISTS` is a no-op). -/
lemma store_set_metaTable_id {s : Store} (h : s.metaTable = true) :
    { s with metaTable := true } = s := by
  cases s
  simp_all

/-- The stored migration version, read as `init_db` reads it (a missing or
non-integer row counts as version 0 for comparison purposes). -/
def migrationVersion (s : Store) : Int :=
  match s.migrationCount with
  | some (SqlValue.integer v) => v
  | _ => 0

/-- A store on which `init_db` is a complete no-op: the `_meta` table
exists and holds an integer migration count of at least 1. -/
def initSettled (s : Store) : Prop :=
  s.metaTable = true ∧ ∃ v : Int, 1 ≤ v ∧ s.migrationCount = some (SqlValue.integer v)

/-- `init_db` on a settled store returns it unchanged with no error. -/
lemma init_db_of_settled {s : Store} (h : initSettled s) :
    init_db s = (s, .ok ()) := by
  obtain ⟨hmeta, v, hv, hcount⟩ := h
  obtain ⟨mt, mc, nt, npt, et, ept, ns, nps, es, eps, a⟩ := s
  simp only at hmeta hcount
  subst hmeta hcount
  simp [init_db, get_migration_count]
  omega

/-- A successful `init_db` run leaves a settled store. -/
lemma init_db_ok_settled {s : Store} (h : (init_db s).2 = .ok ()) :
    initSettled (init_db s).1 := by
  obtain ⟨mt, mc, nt, npt, et, ept, ns, nps, es, eps, a⟩ := s
  cases hm : mc with
  | none =>
    subst hm
    simp [init_db, get_migration_count, migrations_v1, set_migration_count,
      initSettled]
  | some val =>
    cases val with
    | integer v =>
      subst hm
      by_cases hv : v < 1
      · simp [init_db, get_migration_count, migrations_v1, set_migration_count,
          initSettled, hv]
      · simp [init_db, get_migration_count, initSettled, hv]
        omega
    | text t =>
      subst hm
      simp [init_db, get_migration_count] at h
    | null =>
      subst hm
      simp [init_db, get_migration_count] at h

/-- One `init_db` run never lowers the stored migration version. -/
lemma migrationVersion_init_mono (s : Store) :
    migrationVersion s ≤ migrationVersion (init_db s).1 := by
  obtain ⟨mt, mc, nt, npt, et, ept, ns, nps, es, eps, a⟩ := s
  cases mc with
  | none => simp [init_db, get_migration_count, migrations_v1, set_migration_count,
      migrationVersion]
  | some val =>
    cases val with
    | integer v =>
      by_cases hv : v < 1
      · simp [init_db, get_migration_count, migrations_v1, set_migration_count,
          migrationVersion, hv]
        omega
      · simp [init_db, get_migration_count, migrationVersion, hv]
    | text t => simp [init_db, get_migration_count, migrationVersion]
    | null => simp [init_db, get_migration_count, migrationVersion]

/-- The reachable-state invariant of repeated `init_db` runs on one storage
file: either no migration has run and the stored count is absent or 0, or
`migrations_v1` has run exactly once and the stored count is 1. -/
def InitInv (s : Store) : Prop :=
  (s.appliedV1 = 0 ∧
    (s.migrationCount = none ∨ s.migrationCount = some (SqlValue.integer 0)))
  ∨ (s.appliedV1 = 1 ∧ s.migrationCount = some (SqlValue.integer 1))

lemma initInv_fresh : InitInv Store.fresh := by
  left
  exact ⟨rfl, Or.inl rfl⟩

lemma initInv_step {s : Store} (h : InitInv s) : InitInv (init_db s).1 := by
  obtain ⟨mt, mc, nt, npt, et, ept, ns, nps, es, eps, a⟩ := s
  rcases h with ⟨ha, hc | hc⟩ | ⟨ha, hc⟩ <;>
    simp only at ha hc <;> subst ha <;> subst hc <;>
    simp [init_db, get_migration_count, migrations_v1, set_migration_count, InitInv]

/-- `InitInv` is maintained along any number of `init_db` runs started on a
brand-new storage file. -/
lemma initInv_iterate (n : Nat) :
    InitInv (Nat.iterate (fun s => (init_db s).1) n Store.fresh) := by
  induction n with
  | zero => exact initInv_fresh
  | succ k ih =>
    rw [Function.iterate_succ_apply']
    exact initInv_step ih

/-! ## Concrete stores used by witnesses and counterexamples -/

/-- The storage file produced by one `init_db` run on a brand-new file:
all tables exist, no rows. -/
def initializedStore : Store := (init_db Store.fresh).1

/-- A store holding one node and one directed self-loop edge on it. -/
def selfLoopStore : Store :=
  { initializedStore with
    nodes := [⟨"n-a", [], "t0", "t0"⟩],
    edges := [⟨"e-loop", "knows", "n-a", "n-a", true, "t1", "t1"⟩] }

/-- A store holding two nodes and one directed edge from the first to the
second. -/
def abStore : Store :=
  { initializedStore with
    nodes := [⟨"n-a", [], "t0", "t0"⟩, ⟨"n-b", [], "t0", "t0"⟩],
    edges := [⟨"e-ab", "knows", "n-a", "n-b", true, "t1", "t1"⟩] }

/-- The directed edge row of `abStore`. -/
def abEdge : EdgeRow := ⟨"e-ab", "knows", "n-a", "n-b", true, "t1", "t1"⟩

/-- A store holding one undirected self-loop edge row. -/
def undirectedLoopStore : Store :=
  { initializedStore with
    nodes := [⟨"n-w", [], "t0", "t0"⟩],
    edges := [⟨"e-w", "knows", "n-w", "n-w", false, "t1", "t1"⟩] }

/-! ## Claim C1 -/

/-- The C1 property as stated: the `create_edge` repository operation
itself detects a missing endpoint and fails before any row is written,
leaving the storage state unchanged. -/
def CreateEdgeChecksEndpoints : Prop :=
  ∀ (s : Store) (id now : String) (p : CreateEdgeParams),
    ((∀ r ∈ s.nodes, r.id ≠ p.from_node) ∨ (∀ r ∈ s.nodes, r.id ≠ p.to_node)) →
    (create_edge s id now p).1 = s ∧ ∃ er, (create_edge s id now p).2 = .error er

/-- C1 counterexample: on an initialized store with no nodes at all,
`create_edge` happily persists an edge row whose endpoints reference no
node — the repository performs no endpoint check (the schema's
`REFERENCES` clauses are inert because SQLite foreign-key enforcement is
never enabled). -/
theorem create_edge_repo_no_endpoint_check : ¬ CreateEdgeChecksEndpoints := by
  intro h
  obtain ⟨-, er, herr⟩ := h initializedStore "e-1" "t0"
    { edge_type := "knows", from_node := "n-missing", to_node := "n-x",
      directed := true, props := [] } (Or.inl (by decide))
  have hok : (create_edge initializedStore "e-1" "t0"
      { edge_type := "knows", from_node := "n-missing", to_node := "n-x",
        directed := true, props := [] }).2 =
      .ok { id := "e-1", edge_type := "knows", from_node := "n-missing",
            to_node := "n-x", directed := true, props := some [],
            created_at := "t0", updated_at := "t0" } := by decide
  rw [hok] at herr
  cases herr

/-- C1 (amended): the endpoint-existence check lives in the CLI command
layer, not the repository. When the `from` endpoint (or a distinct `to`
endpoint) does not exist, the command fails before anything is written — a
clean no-op — but the error is the fixed message "Source node does not
exist." for either endpoint, so it does not identify which endpoint is
missing. -/
theorem cli_create_edge_missing_endpoint_noop (s : Store)
    (id now et fn tn : String) (d : Bool) (args : List String)
    (htab : s.nodesTable = true)
    (hmiss : (∀ r ∈ s.nodes, r.id ≠ fn) ∨ (∀ r ∈ s.nodes, r.id ≠ tn)) :
    cliCreateEdge s id now et fn tn d args =
      (s, .error (.cliError "Source node does not exist.")) := by
  by_cases hfn : s.nodes.any (fun r => r.id == fn) = true
  · obtain ⟨r, hr, hrid⟩ := List.any_eq_true.mp hfn
    have hrid' : r.id = fn := by simpa using hrid
    have hmiss' : ∀ x ∈ s.nodes, x.id ≠ tn := by
      rcases hmiss with hm | hm
      · exact absurd hrid' (hm r hr)
      · exact hm
    have hne : fn ≠ tn := fun hEq => hmiss' r hr (hEq ▸ hrid')
    have htn : s.nodes.any (fun r => r.id == tn) = false := by
      rw [Bool.eq_false_iff]
      intro hc
      obtain ⟨x, hx, hxid⟩ := List.any_eq_true.mp hc
      exact hmiss' x hx (by simpa using hxid)
    simp [cliCreateEdge, check_node_exists, htab, hfn, htn, bne_iff_ne, hne]
  · have hfn' : s.nodes.any (fun r => r.id == fn) = false :=
      Bool.eq_false_iff.mpr hfn
    simp [cliCreateEdge, check_node_exists, htab, hfn']

/-- C1 witness: creating an edge from a nonexistent node on a freshly
initialized store fails with the fixed message and changes nothing. -/
theorem cli_create_edge_missing_endpoint_noop_w :
    cliCreateEdge initializedStore "e-1" "t0" "knows" "n-missing" "n-x" true [] =
      (initializedStore, .error (.cliError "Source node does not exist.")) :=
  cli_create_edge_missing_endpoint_noop initializedStore "e-1" "t0" "knows"
    "n-missing" "n-x" true [] (by decide) (Or.inl (by decide))

/-! ## Claim C2 -/

/-- C2: `create_node` is atomic. If any step of its transaction fails, the
dropped transaction rolls every effect back: the storage state is exactly
the state before the call, and `check_node_exists` for the attempted
(fresh) id still reports `false`. -/
theorem create_node_failure_atomic (s : Store) (id now : String)
    (p : CreateNodeParams) (e : Err)
    (herr : (create_node s id now p).2 = .error e)
    (hfresh : ∀ r ∈ s.nodes, r.id ≠ id)
    (htab : s.nodesTable = true) :
    (create_node s id now p).1 = s ∧
      check_node_exists (create_node s id now p).1 id = .ok false := by
  have hstate : (create_node s id now p).1 = s := by
    unfold create_node at herr ⊢
    split at herr
    · rfl
    · exact Except.noConfusion herr
  refine ⟨hstate, ?_⟩
  rw [hstate]
  simp only [check_node_exists, htab, if_true, Except.ok.injEq]
  rw [Bool.eq_false_iff]
  intro hc
  obtain ⟨r, hr, hrid⟩ := List.any_eq_true.mp hc
  exact hfresh r hr (by simpa using hrid)

/-- Parameters whose two distinct keys collide after trimming. -/
def collidingNodeParams : CreateNodeParams :=
  { labels := [], props := [(" k", "1"), ("k", "2")] }

/-- C2 witness: a create whose second property insert violates the
`(node_id, key)` primary key leaves the store untouched and the id
nonexistent. -/
theorem create_node_failure_atomic_w :
    (create_node initializedStore "n-1" "t0" collidingNodeParams).1 =
      initializedStore ∧
      check_node_exists
        (create_node initializedStore "n-1" "t0" collidingNodeParams).1 "n-1" =
        .ok false :=
  create_node_failure_atomic initializedStore "n-1" "t0" collidingNodeParams
    (.uniqueViolation "node_props") (by decide) (by decide) (by decide)

/-! ## Claim C3 -/

/-- C3: the round trip promised by the spec is impossible. `create_node`
succeeds, but `get_node`'s SELECT names the column `node_type`, which does
not exist in the `nodes` table the migration creates (the column is
`labels`), so every `get_node` call — with or without properties — fails
with an SQL error instead of returning the stored labels and properties. -/
theorem get_node_roundtrip_broken :
    (create_node initializedStore "n-1" "t0"
      { labels := ["Person"], props := [("name", "\"Ada\"")] }).2 =
      .ok { id := "n-1", labels := ["Person"],
            props := some [("name", "\"Ada\"")],
            created_at := "t0", updated_at := "t0" } ∧
    get_node (create_node initializedStore "n-1" "t0"
        { labels := ["Person"], props := [("name", "\"Ada\"")] }).1
      { id := "n-1", with_props := true } = .error (.noSuchColumn "node_type") ∧
    getNodeQueryColumns.filter (fun c => !(nodesTableColumns.contains c)) =
      ["node_type"] := by
  refine ⟨by decide, by decide, by decide⟩

/-! ## Claim C4 -/

/-- The C4 property as stated, for one store: every stored directed edge is
in `edges_out` of its source and `edges_in` of its target, and in neither
`edges_in` of its source nor `edges_out` of its target. -/
def DirectedEdgeSetMembership (s : Store) : Prop :=
  ∀ e ∈ s.edges, e.directed = true →
    e.id ∈ edgesOutIds s e.from_node ∧ e.id ∈ edgesInIds s e.to_node ∧
    e.id ∉ edgesInIds s e.from_node ∧ e.id ∉ edgesOutIds s e.to_node

/-- C4 counterexample: for a directed self-loop the source and target
coincide, so the edge shows up in `edges_in` of its own source (and
`edges_out` of its own target), contradicting the claim's "in neither"
clause. -/
theorem directed_self_loop_breaks_asymmetry :
    ¬ DirectedEdgeSetMembership selfLoopStore := by
  unfold DirectedEdgeSetMembership
  decide

/-- C4 (amended): with distinct edge ids, a directed edge between two
DISTINCT endpoints is in `edges_out` of its source and `edges_in` of its
target and in neither opposite set; a directed SELF-LOOP (`from = to`)
appears in both `edges_out` and `edges_in` of its single endpoint; and an
undirected edge is in both sets of both endpoints. -/
theorem edge_direction_set_membership (s : Store) (e : EdgeRow)
    (hnd : (s.edges.map (fun x => x.id)).Nodup)
    (he : e ∈ s.edges) :
    (e.directed = true → e.from_node ≠ e.to_node →
      e.id ∈ edgesOutIds s e.from_node ∧ e.id ∈ edgesInIds s e.to_node ∧
      e.id ∉ edgesInIds s e.from_node ∧ e.id ∉ edgesOutIds s e.to_node) ∧
    (e.directed = true → e.from_node = e.to_node →
      e.id ∈ edgesOutIds s e.from_node ∧ e.id ∈ edgesInIds s e.from_node) ∧
    (e.directed = false →
      e.id ∈ edgesOutIds s e.from_node ∧ e.id ∈ edgesOutIds s e.to_node ∧
      e.id ∈ edgesInIds s e.from_node ∧ e.id ∈ edgesInIds s e.to_node) := by
  refine ⟨?_, ?_, ?_⟩
  · intro hd hne
    have hft : (e.from_node == e.to_node) = false :=
      beq_eq_false_iff_ne.mpr hne
    have htf : (e.to_node == e.from_node) = false :=
      beq_eq_false_iff_ne.mpr (Ne.symm hne)
    exact ⟨mem_edgesOutIds_of_match he (by simp),
           mem_edgesInIds_of_match he (by simp),
           not_mem_edgesInIds hnd he (by simp [hd, htf]),
           not_mem_edgesOutIds hnd he (by simp [hd, hft])⟩
  · intro _ heq
    exact ⟨mem_edgesOutIds_of_match he (by simp),
           mem_edgesInIds_of_match he (by simp [heq])⟩
  · intro hd
    exact ⟨mem_edgesOutIds_of_match he (by simp),
           mem_edgesOutIds_of_match he (by simp [hd]),
           mem_edgesInIds_of_match he (by simp [hd]),
           mem_edgesInIds_of_match he (by simp)⟩

/-- The directed self-loop edge row of `selfLoopStore`. -/
def selfLoopEdge : EdgeRow := ⟨"e-loop", "knows", "n-a", "n-a", true, "t1", "t1"⟩

/-- C4 witness: the directed edge of `abStore` from `n-a` to `n-b`
(asymmetric memberships), and the directed self-loop of `selfLoopStore`
(present in both sets of its endpoint). -/
theorem edge_direction_set_membership_w :
    ("e-ab" ∈ edgesOutIds abStore "n-a" ∧ "e-ab" ∈ edgesInIds abStore "n-b" ∧
      "e-ab" ∉ edgesInIds abStore "n-a" ∧ "e-ab" ∉ edgesOutIds abStore "n-b") ∧
    ("e-loop" ∈ edgesOutIds selfLoopStore "n-a" ∧
      "e-loop" ∈ edgesInIds selfLoopStore "n-a") :=
  ⟨(edge_direction_set_membership abStore abEdge (by decide) (by decide)).1
      (by decide) (by decide),
   (edge_direction_set_membership selfLoopStore selfLoopEdge (by decide)
      (by decide)).2.1 (by decide) (by decide)⟩

/-! ## Claim C5 -/

/-- C5: running `init_db` a second time after a successful run is a
complete no-op: the resulting store (migration version and the ghost DDL
counter included) is identical and the result is not an error, so no
already-applied migration step is re-run. -/
theorem init_db_idempotent (s : Store)
    (hok : (init_db s).2 = .ok ()) :
    init_db (init_db s).1 = ((init_db s).1, .ok ()) ∧
    migrationVersion (init_db (init_db s).1).1 = migrationVersion (init_db s).1 ∧
    (init_db (init_db s).1).1.appliedV1 = (init_db s).1.appliedV1 := by
  have h1 := init_db_of_settled (init_db_ok_settled hok)
  exact ⟨h1, by rw [h1], by rw [h1]⟩

/-- C5 witness: a brand-new storage file. -/
theorem init_db_idempotent_w :
    init_db (init_db Store.fresh).1 = ((init_db Store.fresh).1, .ok ()) ∧
    migrationVersion (init_db (init_db Store.fresh).1).1 =
      migrationVersion (init_db Store.fresh).1 ∧
    (init_db (init_db Store.fresh).1).1.appliedV1 =
      (init_db Store.fresh).1.appliedV1 :=
  init_db_idempotent Store.fresh (by decide)

/-! ## Claim C6 -/

/-- A successful `create_node` transaction implies the trimmed property
keys were pairwise distinct. -/
lemma createNodeTx_ok_trim_nodup {s tx' : Store} {id now : String}
    {p : CreateNodeParams} (h : createNodeTx s id now p = .ok tx') :
    (p.props.map (fun kv => rustTrim kv.1)).Nodup := by
  unfold createNodeTx at h
  split at h
  · exact Except.noConfusion h
  · rename_i tx heq
    exact insertNodeProps_ok_trim_nodup p.props tx tx' h

/-- C6 counterexample: the property key `a` supplied twice in one CLI
create-node operation does not raise any error at all — the parsing loop
silently keeps the last occurrence and the create succeeds with a single
property row. -/
theorem cli_duplicate_prop_key_accepted :
    parseProps ["a=1", "a=2"] = .ok [("a", "2")] ∧
    (cliCreateNode initializedStore "n-1" "t0" ["L"] ["a=1", "a=2"]).2 =
      .ok { id := "n-1", labels := ["L"], props := some [("a", "2")],
            created_at := "t0", updated_at := "t0" } ∧
    ((cliCreateNode initializedStore "n-1" "t0" ["L"] ["a=1", "a=2"]).1.nodeProps.map
      (fun r => r.key)) = ["a"] := by
  refine ⟨by decide, by decide, by decide⟩

/-- C6 (amended): duplicate keys on the command line are silently collapsed
before the repository is reached (last occurrence wins), so no
`DuplicateKeyError` exists; only when two DISTINCT map keys normalize
(trim) to the same stored key does the create fail — with a generic
`(node_id, key)` primary-key violation — and that failure is atomic: no
entity row and no property row is persisted. -/
theorem create_node_colliding_trim_keys_fail (s : Store) (id now : String)
    (p : CreateNodeParams)
    (hdup : ¬ (p.props.map (fun kv => rustTrim kv.1)).Nodup) :
    (∃ e, (create_node s id now p).2 = .error e) ∧
      (create_node s id now p).1 = s := by
  unfold create_node
  cases h : createNodeTx s id now p with
  | error e => exact ⟨⟨e, rfl⟩, rfl⟩
  | ok tx => exact absurd (createNodeTx_ok_trim_nodup h) hdup

/-- Parameters whose two distinct keys collide after trimming (used by the
C6 witness). -/
def collidingNodeParams2 : CreateNodeParams :=
  { labels := [], props := [(" dup", "1"), ("dup", "2")] }

/-- C6 witness: two distinct keys trimming to `dup`. -/
theorem create_node_colliding_trim_keys_fail_w :
    (∃ e, (create_node initializedStore "n-9" "t0" collidingNodeParams2).2 =
      .error e) ∧
      (create_node initializedStore "n-9" "t0" collidingNodeParams2).1 =
        initializedStore :=
  create_node_colliding_trim_keys_fail initializedStore "n-9" "t0"
    collidingNodeParams2 (by decide)

/-! ## Claim C7 -/

/-- A successful `create_node` appends exactly one property row per entry,
keyed by the trimmed (case-preserved) key. -/
lemma createNodeTx_ok_props {s tx' : Store} {id now : String}
    {p : CreateNodeParams} (h : createNodeTx s id now p = .ok tx') :
    tx'.nodeProps = s.nodeProps ++
      p.props.map (fun kv => ⟨id, rustTrim kv.1, jsonToText kv.2, now, now⟩) := by
  unfold createNodeTx at h
  split at h
  · exact Except.noConfusion h
  · rename_i tx heq
    rw [insertNodeProps_ok_eq p.props tx tx' h, insertNodeRow_ok_nodeProps heq]

/-- A successful `create_edge` appends exactly one property row per entry,
keyed by the trimmed-and-lowercased key. -/
lemma createEdgeTx_ok_props {s tx' : Store} {id now : String}
    {p : CreateEdgeParams} (h : createEdgeTx s id now p = .ok tx') :
    tx'.edgeProps = s.edgeProps ++
      p.props.map (fun kv =>
        ⟨id, rustToLower (rustTrim kv.1), jsonToText kv.2, now, now⟩) := by
  unfold createEdgeTx at h
  split at h
  · exact Except.noConfusion h
  · rename_i tx heq
    rw [insertEdgeProps_ok_eq p.props tx tx' h, insertEdgeRow_ok_edgeProps heq]

/-- The C7 property as stated: property keys of both entity kinds are
stored trimmed with their letter case unaltered. -/
def PropKeyTrimBothKinds : Prop :=
  ∀ (s : Store) (id now : String) (p : CreateEdgeParams) (edge : DbEdge),
    (create_edge s id now p).2 = .ok edge →
    (create_edge s id now p).1.edgeProps.map (fun r => r.key) =
      s.edgeProps.map (fun r => r.key) ++ p.props.map (fun kv => rustTrim kv.1)

/-- C7 counterexample: an edge property supplied with key `Name` is stored
under `name` — `create_edge` lowercases keys while `create_node` does not,
so there is no single case-preserving rule. -/
theorem edge_prop_key_lowercased : ¬ PropKeyTrimBothKinds := by
  intro h
  have h2 := h initializedStore "e-1" "t0"
    { edge_type := "k", from_node := "n-a", to_node := "n-a",
      directed := false, props := [("Name", "\"x\"")] }
    { id := "e-1", edge_type := "k", from_node := "n-a", to_node := "n-a",
      directed := false, props := some [("Name", "\"x\"")],
      created_at := "t0", updated_at := "t0" } (by decide)
  revert h2
  decide

/-- C7 (amended): the two entity kinds use DIFFERENT normalization rules,
each applied once before storage: `create_node` stores `trim(key)` (case
preserved) while `create_edge` stores `lowercase(trim(key))`. -/
theorem prop_key_normalization_rules (s s2 : Store) (id now : String)
    (pn : CreateNodeParams) (pe : CreateEdgeParams)
    (node : DbNode) (edge : DbEdge) :
    ((create_node s id now pn).2 = .ok node →
      (create_node s id now pn).1.nodeProps = s.nodeProps ++
        pn.props.map (fun kv => ⟨id, rustTrim kv.1, jsonToText kv.2, now, now⟩)) ∧
    ((create_edge s2 id now pe).2 = .ok edge →
      (create_edge s2 id now pe).1.edgeProps = s2.edgeProps ++
        pe.props.map (fun kv =>
          ⟨id, rustToLower (rustTrim kv.1), jsonToText kv.2, now, now⟩)) := by
  constructor
  · intro h
    unfold create_node at h ⊢
    split at h
    · exact Except.noConfusion h
    · rename_i tx heq
      exact createNodeTx_ok_props heq
  · intro h
    unfold create_edge at h ⊢
    split at h
    · exact Except.noConfusion h
    · rename_i tx heq
      exact createEdgeTx_ok_props heq

/-- The node-create parameters of the C7 witness. -/
def trimWitNodeParams : CreateNodeParams :=
  { labels := [], props := [(" A ", "1")] }

/-- The edge-create parameters of the C7 witness. -/
def trimWitEdgeParams : CreateEdgeParams :=
  { edge_type := "k", from_node := "x", to_node := "y", directed := true,
    props := [(" A ", "1")] }

/-- C7 witness: the key ` A ` is stored as `A` on a node and as `a` on an
edge. -/
theorem prop_key_normalization_rules_w :
    (create_node initializedStore "n-1" "t0" trimWitNodeParams).1.nodeProps =
      initializedStore.nodeProps ++ trimWitNodeParams.props.map
        (fun kv => ⟨"n-1", rustTrim kv.1, jsonToText kv.2, "t0", "t0"⟩) ∧
    (create_edge initializedStore "e-1" "t0" trimWitEdgeParams).1.edgeProps =
      initializedStore.edgeProps ++ trimWitEdgeParams.props.map
        (fun kv => ⟨"e-1", rustToLower (rustTrim kv.1), jsonToText kv.2,
                    "t0", "t0"⟩) :=
  ⟨(prop_key_normalization_rules initializedStore initializedStore "n-1" "t0"
      trimWitNodeParams trimWitEdgeParams
      { id := "n-1", labels := [], props := some [(" A ", "1")],
        created_at := "t0", updated_at := "t0" }
      { id := "e-1", edge_type := "k", from_node := "x", to_node := "y",
        directed := true, props := some [(" A ", "1")],
        created_at := "t0", updated_at := "t0" }).1 (by decide),
   (prop_key_normalization_rules initializedStore initializedStore "e-1" "t0"
      trimWitNodeParams trimWitEdgeParams
      { id := "e-1", labels := [], props := some [(" A ", "1")],
        created_at := "t0", updated_at := "t0" }
      { id := "e-1", edge_type := "k", from_node := "x", to_node := "y",
        directed := true, props := some [(" A ", "1")],
        created_at := "t0", updated_at := "t0" }).2 (by decide)⟩

/-! ## Claim C8 -/

/-- C8: with distinct edge ids (the `edges` primary key), one traversal
query returns each edge id at most once — in particular a self-loop,
directed or not, contributes at most one entry. -/
theorem traversal_result_nodup (s : Store) (n : String)
    (hnd : (s.edges.map (fun x => x.id)).Nodup) :
    (∀ l, get_node_edges_out s n = .ok l → l.Nodup) ∧
    (∀ l, get_node_edges_in s n = .ok l → l.Nodup) := by
  constructor
  · intro l h
    unfold get_node_edges_out at h
    split at h
    · obtain rfl : edgesOutIds s n = l := Except.ok.inj h
      unfold edgesOutIds
      exact List.Nodup.sublist ((List.filter_sublist s.edges).map _) hnd
    · exact Except.noConfusion h
  · intro l h
    unfold get_node_edges_in at h
    split at h
    · obtain rfl : edgesInIds s n = l := Except.ok.inj h
      unfold edgesInIds
      exact List.Nodup.sublist ((List.filter_sublist s.edges).map _) hnd
    · exact Except.noConfusion h

/-- C8 witness: an undirected self-loop yields a single entry in each
direction of `undirectedLoopStore`. -/
theorem traversal_result_nodup_w :
    (edgesOutIds undirectedLoopStore "n-w").Nodup ∧
    (edgesInIds undirectedLoopStore "n-w").Nodup :=
  ⟨(traversal_result_nodup undirectedLoopStore "n-w" (by decide)).1 _
      (by decide),
   (traversal_result_nodup undirectedLoopStore "n-w" (by decide)).2 _
      (by decide)⟩

/-! ## Claim C9 -/

/-- C9: across any sequence of `init_db` runs, the stored migration version
never decreases (first conjunct: one arbitrary step), and starting from a
brand-new storage file the `migrations_v1` DDL is executed at most once no
matter how many times `init_db` runs (second conjunct, via the ghost
counter). -/
theorem migration_version_monotone_applied_once :
    (∀ s : Store, migrationVersion s ≤ migrationVersion (init_db s).1) ∧
    (∀ n : Nat,
      (Nat.iterate (fun s => (init_db s).1) n Store.fresh).appliedV1 ≤ 1) := by
  refine ⟨migrationVersion_init_mono, fun n => ?_⟩
  rcases initInv_iterate n with ⟨ha, -⟩ | ⟨ha, -⟩ <;> omega

/-! ## Claim C10 -/

/-- C10: a successful create returns an entity built from the inputs, not
re-read from the store: `updated_at` equals `created_at` (both the
generation timestamp) and `props` is `some` of exactly the caller-supplied
map with its original, un-normalized keys. -/
theorem create_returns_input_entity (s s2 : Store) (id now : String)
    (pn : CreateNodeParams) (pe : CreateEdgeParams)
    (node : DbNode) (edge : DbEdge) :
    ((create_node s id now pn).2 = .ok node →
      node.updated_at = node.created_at ∧ node.props = some pn.props ∧
      node.labels = pn.labels ∧ node.created_at = now ∧ node.id = id) ∧
    ((create_edge s2 id now pe).2 = .ok edge →
      edge.updated_at = edge.created_at ∧ edge.props = some pe.props ∧
      edge.created_at = now ∧ edge.id = id) := by
  constructor
  · intro h
    unfold create_node at h
    split at h
    · exact Except.noConfusion h
    · obtain rfl := Except.ok.inj h
      exact ⟨rfl, rfl, rfl, rfl, rfl⟩
  · intro h
    unfold create_edge at h
    split at h
    · exact Except.noConfusion h
    · obtain rfl := Except.ok.inj h
      exact ⟨rfl, rfl, rfl, rfl⟩

/-- The node created by the C10 witness. -/
def c10Node : DbNode :=
  { id := "n-1", labels := ["L"], props := some [("The Key", "1")],
    created_at := "t0", updated_at := "t0" }

/-- The edge created by the C10 witness. -/
def c10Edge : DbEdge :=
  { id := "n-1", edge_type := "k", from_node := "a", to_node := "b",
    directed := true, props := some [("The Key", "1")],
    created_at := "t0", updated_at := "t0" }

/-- C10 witness: concrete creates returning the input-built entities (note
the returned props keep the un-normalized key `The Key`). -/
theorem create_returns_input_entity_w :
    (c10Node.updated_at = c10Node.created_at ∧
      c10Node.props = some [("The Key", "1")] ∧
      c10Node.labels = ["L"] ∧ c10Node.created_at = "t0" ∧
      c10Node.id = "n-1") ∧
    (c10Edge.updated_at = c10Edge.created_at ∧
      c10Edge.props = some [("The Key", "1")] ∧
      c10Edge.created_at = "t0" ∧ c10Edge.id = "n-1") :=
  ⟨(create_returns_input_entity initializedStore initializedStore "n-1" "t0"
      { labels := ["L"], props := [("The Key", "1")] }
      { edge_type := "k", from_node := "a", to_node := "b", directed := true,
        props := [("The Key", "1")] } c10Node c10Edge).1 (by decide),
   (create_returns_input_entity initializedStore initializedStore "n-1" "t0"
      { labels := ["L"], props := [("The Key", "1")] }
      { edge_type := "k", from_node := "a", to_node := "b", directed := true,
        props := [("The Key", "1")] } c10Node c10Edge).2 (by decide)⟩
